import Mathlib

/-!
# Verification of the `encryptdir` walk-and-transform engine

Shallow embedding of `src/pkg/encryptdir/encrypt.go` and
`src/pkg/encryptdir/decrypt.go` (repository `prairir/encryptdir`).

File contents are lists of bytes (`Nat`), the filesystem is an association
list from path to content, and the per-file transform goroutine bodies of
`Walker.encryptWalk` and `Walker.decryptWalk` are embedded as pure state
transformers that also record a trace of filesystem events (create, write,
rename).  Go run-time panics (out-of-range slice expressions) are a distinct
outcome from returned `error` values.

The cryptographic primitives live in `pkg/aes` and `pkg/rsa` of the same
repository, which are not part of the sources under verification; following
the specification they are treated as opaque functions with fixed contracts,
packaged in `CryptoModel` below.
-/

set_option autoImplicit false

namespace Encryptdir

/-- A byte, as an unbounded natural number (all byte values used are < 256). -/
abbrev Byte := Nat

/-- The filesystem: an association list from path to file content.
A path present in the list is an existing file. -/
abbrev FS := List (String × List Byte)

/-- The extension-to-key map (`keyMap map[string][]byte` in the Go code). -/
abbrev KeyMap := List (String × List Byte)

/-- First-match association-list lookup (Go map read / file open by path). -/
def fsLookup (fs : FS) (p : String) : Option (List Byte) :=
  match fs with
  | [] => none
  | (q, c) :: rest => if q = p then some c else fsLookup rest p

/-- Path existence test (`os.OpenFile` with `O_EXCL` failing with `ErrExist`). -/
def fsMem (fs : FS) (p : String) : Bool :=
  (fsLookup fs p).isSome

/-- Create or overwrite the file at `p` with content `c`. -/
def fsInsert (fs : FS) (p : String) (c : List Byte) : FS :=
  match fs with
  | [] => [(p, c)]
  | (q, d) :: rest => if q = p then (p, c) :: rest else (q, d) :: fsInsert rest p c

/-- Delete every entry at path `p`. -/
def fsRemove (fs : FS) (p : String) : FS :=
  match fs with
  | [] => []
  | (q, d) :: rest => if q = p then fsRemove rest p else (q, d) :: fsRemove rest p

/-- `os.Rename(src, dst)`: move the content at `src` over `dst`.
If `src` does not exist the filesystem is unchanged (the Go call would
error; the embedded code only renames files it has just created). -/
def fsRename (fs : FS) (src dst : String) : FS :=
  match fsLookup fs src with
  | none => fs
  | some c => fsInsert (fsRemove fs src) dst c

/-- A filesystem event performed by a transform step. -/
inductive Event where
  | create (path : String)
  | write (path : String) (data : List Byte)
  | rename (src dst : String)
deriving Repr, DecidableEq

/-- Outcome of a Go function call: a normal return value, a returned
`error`, or a run-time panic. -/
inductive GoOutcome (α : Type) where
  | ok (a : α)
  | goError (msg : String)
  | panicked (msg : String)
deriving Repr, DecidableEq

/-- Result of one per-file transform step: the outcome the goroutine sends
on its error channel, the filesystem as the step leaves it, and the trace
of filesystem events the step performed. -/
structure StepResult where
  out : GoOutcome Unit
  fs : FS
  events : List Event
deriving Repr, DecidableEq

/-- Helper for `goExt`: scan the reversed character list, accumulating the
characters already passed (in original order); answer the suffix from the
last dot, stopping at a path separator. -/
def goExtRevAux : List Char → List Char → Option (List Char)
  | [], _ => none
  | c :: rest, acc =>
    if c = '/' then none
    else if c = '.' then some (c :: acc)
    else goExtRevAux rest (c :: acc)

/-- Go `filepath.Ext`: the suffix of the final path element beginning at the
final dot (dot included), or the empty string when there is no dot. -/
def goExt (path : String) : String :=
  match goExtRevAux path.data.reverse [] with
  | none => ""
  | some cs => String.mk cs

/-- Go string slice expression `s[1:]` as used at encrypt.go line 75
(`keyMap[ext[1:]]`): panics when the string is shorter than one character,
otherwise drops the first character. -/
def goStringFrom1 (s : String) : GoOutcome String :=
  if s.length < 1 then .panicked "slice bounds out of range"
  else .ok (String.mk (s.data.drop 1))

/-- `aes.SIGNATURE_SIZE`.  Modelled from the spec: `pkg/aes` is not among
the sources; the spec fixes the marker length as the length of the
signature scheme output, here an RSA signature with a 2048-bit modulus,
hence 256 bytes. -/
def SIGNATURE_SIZE : Nat := 256

/-- `crypto.MD5.Size()`: the MD5 digest length, 16 bytes
(decrypt.go line 95). -/
def MD5_SIZE : Nat := 16

/-- Capacity of the byte slice returned by Go `io.ReadAll`: its buffer
starts at 512 bytes and only grows, so the capacity is at least 512 and at
least the length; for contents shorter than 512 bytes it is exactly 512,
and the bytes between length and capacity are zero. -/
def readAllCap (len : Nat) : Nat := max 512 len

/-- Go slice expression `b[:n]` on a byte slice with the given capacity:
within the length it truncates; between length and capacity it extends with
the zero bytes of the backing buffer; beyond the capacity it panics. -/
def goSliceTo (data : List Byte) (cap n : Nat) : GoOutcome (List Byte) :=
  if n ≤ data.length then .ok (data.take n)
  else if n ≤ cap then .ok (data ++ List.replicate (n - data.length) 0)
  else .panicked "slice bounds out of range"

/-- Go `filepath.Join(a, b)` for a clean root `a` and relative entry `b`:
an empty or current-directory root yields `b` itself, any other root is
joined with a separator. -/
def pathJoin (a b : String) : String :=
  if a = "" ∨ a = "." then b else a ++ "/" ++ b

/-- The opaque cryptographic collaborators (`pkg/rsa`, `pkg/aes`), with the
contracts the spec fixes for them: `sign k` is the deterministic signature
of key bytes `k` (the marker; `rsa.CreateSignature`, and
`rsa.VerifySignature` succeeds exactly on it), of the fixed output length
`SIGNATURE_SIZE`; `enc` and `dec` are the symmetric primitives
(`aes.Encrypt`, `aes.Decrypt`) with the round-trip contract. -/
structure CryptoModel where
  sign : List Byte → List Byte
  enc : List Byte → List Byte → List Byte
  dec : List Byte → List Byte → List Byte
  sign_len : ∀ k, (sign k).length = SIGNATURE_SIZE
  dec_enc : ∀ k m, dec k (enc k m) = m

/-- A concrete executable instance of the cryptographic contracts, used to
evaluate the embedded code on concrete inputs: the signature of any key is
256 bytes of `1`, and the cipher is the identity (which satisfies the
round-trip contract). -/
def idCrypto : CryptoModel where
  sign := fun _ => List.replicate SIGNATURE_SIZE 1
  enc := fun _ m => m
  dec := fun _ c => c
  sign_len := fun _ => List.length_replicate SIGNATURE_SIZE 1
  dec_enc := fun _ _ => rfl

/-- The KeyMap lookup performed on the encrypt path (encrypt.go lines
74-75): `ext := filepath.Ext(path); key, ok := keyMap[ext[1:]]` — the
leading dot is stripped before the lookup, panicking when there is no
extension at all. -/
def encryptExtLookup (keyMap : KeyMap) (path : String) :
    GoOutcome (Option (List Byte)) :=
  match goStringFrom1 (goExt path) with
  | .ok e => .ok (fsLookup keyMap e)
  | .goError m => .goError m
  | .panicked m => .panicked m

/-- The KeyMap lookup performed on the decrypt path (decrypt.go lines
86-87): `ext := filepath.Ext(path); key, ok := keyMap[ext]` — the extension
is looked up with its leading dot intact. -/
def decryptExtLookup (keyMap : KeyMap) (path : String) : Option (List Byte) :=
  fsLookup keyMap (goExt path)

/-- Shallow embedding of the per-file goroutine body of
`Walker.encryptWalk` (encrypt.go lines 67-150): skip directories, look the
dot-stripped extension up in the key map, open and read the file at
`filepath.Join(startPath, path)`, slice the first `aes.SIGNATURE_SIZE`
bytes as a candidate marker, skip when it verifies, otherwise exclusively
create `fullPath + ".enc"` (an existing temp file is a silent skip), write
the fresh marker then the ciphertext of the whole content, and rename the
temp file over the original. -/
def encryptWalkStep (cm : CryptoModel) (keyMap : KeyMap)
    (startPath path : String) (isDir : Bool) (fs : FS) : StepResult :=
  if isDir then ⟨.ok (), fs, []⟩
  else
    match goStringFrom1 (goExt path) with
    | .panicked m => ⟨.panicked m, fs, []⟩
    | .goError m => ⟨.goError m, fs, []⟩
    | .ok extKey =>
      match fsLookup keyMap extKey with
      | none => ⟨.ok (), fs, []⟩
      | some key =>
        let fullPath := pathJoin startPath path
        match fsLookup fs fullPath with
        | none => ⟨.goError "encryptdir.Walker.encryptWalk: os.OpenFile", fs, []⟩
        | some plain =>
          match goSliceTo plain (readAllCap plain.length) SIGNATURE_SIZE with
          | .panicked m => ⟨.panicked m, fs, []⟩
          | .goError m => ⟨.goError m, fs, []⟩
          | .ok sig =>
            if sig = cm.sign key then ⟨.ok (), fs, []⟩
            else
              let wSig := cm.sign key
              if fsMem fs (fullPath ++ ".enc") then ⟨.ok (), fs, []⟩
              else
                let fs1 := fsInsert fs (fullPath ++ ".enc") []
                let fs2 := fsInsert fs1 (fullPath ++ ".enc") wSig
                let cipher := cm.enc key plain
                let fs3 := fsInsert fs2 (fullPath ++ ".enc") (wSig ++ cipher)
                let fs4 := fsRename fs3 (fullPath ++ ".enc") fullPath
                ⟨.ok (), fs4,
                  [.create (fullPath ++ ".enc"),
                   .write (fullPath ++ ".enc") wSig,
                   .write (fullPath ++ ".enc") cipher,
                   .rename (fullPath ++ ".enc") fullPath]⟩

/-- Shallow embedding of the per-file goroutine body of
`Walker.decryptWalk` (decrypt.go lines 59-133): skip directories,
exclusively create `path + ".dec"` (an existing temp file is a silent
skip), open the file at `path` — never joined to any root —, look the
dotted extension up in the key map, read the first `crypto.MD5.Size()`
bytes as the marker (an empty file makes this read return EOF, an error),
skip when verification fails, otherwise decrypt the remainder, write the
plaintext to the temp file and rename it over the original. -/
def decryptWalkStep (cm : CryptoModel) (keyMap : KeyMap)
    (path : String) (isDir : Bool) (fs : FS) : StepResult :=
  if isDir then ⟨.ok (), fs, []⟩
  else if fsMem fs (path ++ ".dec") then ⟨.ok (), fs, []⟩
  else
    let fs1 := fsInsert fs (path ++ ".dec") []
    match fsLookup fs1 path with
    | none => ⟨.goError "encryptdir.Walker.decryptWalk: os.OpenFile", fs1,
               [.create (path ++ ".dec")]⟩
    | some content =>
      match decryptExtLookup keyMap path with
      | none => ⟨.ok (), fs1, [.create (path ++ ".dec")]⟩
      | some key =>
        if content.length = 0 then
          ⟨.goError "encryptdir.Walker.decryptWalk: cipherFile.Read", fs1,
           [.create (path ++ ".dec")]⟩
        else
          let sig := content.take MD5_SIZE ++
            List.replicate (MD5_SIZE - min MD5_SIZE content.length) 0
          if sig = cm.sign key then
            let cipher := content.drop (min MD5_SIZE content.length)
            let plain := cm.dec key cipher
            let fs2 := fsInsert fs1 (path ++ ".dec") plain
            let fs3 := fsRename fs2 (path ++ ".dec") path
            ⟨.ok (), fs3,
             [.create (path ++ ".dec"),
              .write (path ++ ".dec") plain,
              .rename (path ++ ".dec") path]⟩
          else ⟨.ok (), fs1, [.create (path ++ ".dec")]⟩

/-- The body of the error-merging loop shared verbatim by
`encryptDirectories` (encrypt.go lines 37-45) and `decrypt` (decrypt.go
lines 35-43).  Each walk result received from the channel is `none` (a nil
error) or `some msgs` (a `cwalk.WalkerErrorList` carrying the per-file
failure messages).  The Go loop declares `var eList cwalk.WalkerErrorList`
and tests `errors.As(err, &cwalk.WalkerErrorList{})` — the match target is
a fresh discarded value, so `eList` keeps its zero value (a nil error
list) when `errList.ErrorList = append(errList.ErrorList,
eList.ErrorList...)` runs. -/
def mergeStep (acc : List String) (err : Option (List String)) : List String :=
  let eList : List String := []
  match err with
  | some _ => acc ++ eList
  | none => acc

/-- The aggregate the merge loop builds and returns: the fold of
`mergeStep` over the received walk results, formatted as a single error
when non-empty and nil otherwise (encrypt.go lines 47-51, decrypt.go
lines 45-49). -/
def mergeWalkErrors (walkResults : List (Option (List String))) : Option String :=
  let errList := walkResults.foldl mergeStep []
  if errList.length > 0 then
    some ("aes.Encrypt: cwalk.Walk: " ++ String.intercalate "\n" errList)
  else none

/-- decrypt.go lines 22-25: the single `Walker` value shared by all
directory roots on the decrypt path; its `startPath` field is never set
and keeps the zero value, the empty string. -/
def decryptWalkerStartPath : String := ""

/-- encrypt.go line 82: the filesystem path the encrypt transform
addresses for a walker with the given root. -/
def encryptTargetPath (startPath path : String) : String :=
  pathJoin startPath path

/-- decrypt.go lines 79 and 126: the filesystem path the decrypt transform
opens and renames over — the walker-relative path itself. -/
def decryptTargetPath (path : String) : String := path

/-- decrypt.go lines 65 and 126: the temporary file path of the decrypt
transform. -/
def decryptTempPath (path : String) : String := path ++ ".dec"

/-- encrypt.go line 97: the number of bytes the encrypt path treats as the
marker at the front of a file (`plain[:aes.SIGNATURE_SIZE]`), and the
length of the marker it writes (`rsa.CreateSignature` output). -/
def encryptMarkerSize : Nat := SIGNATURE_SIZE

/-- decrypt.go line 95: the number of bytes the decrypt path reads and
verifies as the marker (`sig := make([]byte, crypto.MD5.Size())`). -/
def decryptSigReadSize : Nat := MD5_SIZE

/-- The file content of the spec scenario: the bytes of `"hello"`. -/
def helloBytes : List Byte := [104, 101, 108, 108, 111]

/-- The KeyMap of the spec scenario: extension `txt` mapped to a key. -/
def scenarioKeyMap : KeyMap := [("txt", [7])]

/-- Scenario 1 starting filesystem: `a.txt` contains `"hello"`. -/
def scenarioFS : FS := [("a.txt", helloBytes)]

/-- The filesystem after the encrypt pass of scenario 1. -/
def afterEncrypt : FS :=
  (encryptWalkStep idCrypto scenarioKeyMap "" "a.txt" false scenarioFS).fs

/-- The filesystem after the decrypt pass following the encrypt pass of
scenario 1. -/
def afterRoundTrip : FS :=
  (decryptWalkStep idCrypto scenarioKeyMap "a.txt" false afterEncrypt).fs

/-- A KeyMap carrying the same key under both the dot-stripped and the
dotted form of the extension, so that the differing normalizations of the
two directions both find it. -/
def bothFormsKeyMap : KeyMap := [("txt", [7]), (".txt", [7])]

/-- The filesystem after encrypting `b.txt` under `bothFormsKeyMap`. -/
def c3AfterEncrypt : FS :=
  (encryptWalkStep idCrypto bothFormsKeyMap "" "b.txt" false
    [("b.txt", helloBytes)]).fs

/-- A filesystem in which the encrypt temporary file for `a.txt` already
exists. -/
def c9fsEnc : FS := [("a.txt", helloBytes), ("a.txt.enc", [])]

/-- A filesystem in which the decrypt temporary file for `b.txt` already
exists. -/
def c9fsDec : FS := [("b.txt", helloBytes), ("b.txt.dec", [])]

/-! ## Library lemmas about the filesystem model -/

theorem fsLookup_insert_self (fs : FS) (p : String) (c : List Byte) :
    fsLookup (fsInsert fs p c) p = some c := by
  induction fs with
  | nil => simp [fsInsert, fsLookup]
  | cons hd tl ih =>
    obtain ⟨q, d⟩ := hd
    by_cases h : q = p <;> simp [fsInsert, fsLookup, h, ih]

theorem fsLookup_insert_ne (fs : FS) (p q : String) (c : List Byte)
    (h : q ≠ p) : fsLookup (fsInsert fs p c) q = fsLookup fs q := by
  induction fs with
  | nil => simp [fsInsert, fsLookup, Ne.symm h]
  | cons hd tl ih =>
    obtain ⟨r, d⟩ := hd
    by_cases hr : r = p
    · subst hr
      simp [fsInsert, fsLookup, Ne.symm h]
    · simp [fsInsert, fsLookup, hr, ih]

theorem fsLookup_remove_ne (fs : FS) (p q : String) (h : q ≠ p) :
    fsLookup (fsRemove fs p) q = fsLookup fs q := by
  induction fs with
  | nil => simp [fsRemove]
  | cons hd tl ih =>
    obtain ⟨r, d⟩ := hd
    by_cases hr : r = p
    · subst hr
      simp [fsRemove, fsLookup, Ne.symm h, ih]
    · simp [fsRemove, fsLookup, hr, ih]

theorem fsLookup_rename_dst (fs : FS) (src dst : String) (c : List Byte)
    (h : fsLookup fs src = some c) :
    fsLookup (fsRename fs src dst) dst = some c := by
  simp [fsRename, h, fsLookup_insert_self]

theorem fsLookup_rename_other (fs : FS) (src dst q : String)
    (h1 : q ≠ src) (h2 : q ≠ dst) :
    fsLookup (fsRename fs src dst) q = fsLookup fs q := by
  unfold fsRename
  cases hl : fsLookup fs src with
  | none => rfl
  | some c => rw [fsLookup_insert_ne _ _ _ _ h2, fsLookup_remove_ne _ _ _ h1]

/-! ## Library lemmas about strings, slices and the merge loop -/

theorem string_of_length_zero (s : String) (h : s.length = 0) : s = "" := by
  cases s with
  | mk data =>
    simp [String.length] at h
    simp [h]

theorem string_append_left_ne (s p : String) (h : s ≠ "") : s ++ p ≠ p := by
  intro he
  have hl := congrArg String.length he
  rw [String.length_append] at hl
  exact h (string_of_length_zero s (by omega))

theorem string_append_right_ne (p t : String) (h : t ≠ "") : p ++ t ≠ p := by
  intro he
  have hl := congrArg String.length he
  rw [String.length_append] at hl
  exact h (string_of_length_zero t (by omega))

theorem goSliceTo_pad (plain : List Byte) (h : plain.length < SIGNATURE_SIZE) :
    goSliceTo plain (readAllCap plain.length) SIGNATURE_SIZE =
      .ok (plain ++ List.replicate (SIGNATURE_SIZE - plain.length) 0) := by
  have h1 : ¬ SIGNATURE_SIZE ≤ plain.length := by omega
  have h2 : SIGNATURE_SIZE ≤ readAllCap plain.length :=
    le_trans (by decide : SIGNATURE_SIZE ≤ 512) (le_max_left 512 plain.length)
  simp [goSliceTo, h1, h2]

theorem mergeStep_id (acc : List String) (err : Option (List String)) :
    mergeStep acc err = acc := by
  cases err <;> simp [mergeStep]

theorem foldl_mergeStep (l : List (Option (List String))) (acc : List String) :
    l.foldl mergeStep acc = acc := by
  induction l generalizing acc with
  | nil => rfl
  | cons r rest ih => rw [List.foldl_cons, mergeStep_id, ih]

/-- Frame property of the decrypt transform: a path other than the visited
entry path and its `.dec` temporary is untouched, whatever the key map,
the filesystem and the crypto primitives — in particular no path involving
a directory root is ever addressed. -/
theorem decryptWalkStep_frame (cm : CryptoModel) (keyMap : KeyMap)
    (path : String) (isDir : Bool) (fs : FS) (q : String)
    (h1 : q ≠ path) (h2 : q ≠ path ++ ".dec") :
    fsLookup (decryptWalkStep cm keyMap path isDir fs).fs q = fsLookup fs q := by
  by_cases hd : isDir = true
  · simp [decryptWalkStep, hd]
  by_cases ht : fsMem fs (path ++ ".dec") = true
  · simp [decryptWalkStep, hd, ht]
  simp only [decryptWalkStep, hd, ht, Bool.false_eq_true, if_false]
  cases hl : fsLookup (fsInsert fs (path ++ ".dec") []) path with
  | none => simp [hl, fsLookup_insert_ne _ _ _ _ h2]
  | some content =>
    cases hk : decryptExtLookup keyMap path with
    | none => simp [hl, hk, fsLookup_insert_ne _ _ _ _ h2]
    | some key =>
      by_cases h0 : content.length = 0
      · simp [hl, hk, h0, fsLookup_insert_ne _ _ _ _ h2]
      · by_cases hs : content.take MD5_SIZE ++
            List.replicate (MD5_SIZE - min MD5_SIZE content.length) 0
            = cm.sign key
        · simp [hl, hk, h0, hs, fsLookup_rename_other _ _ _ _ h2 h1,
            fsLookup_insert_ne _ _ _ _ h2]
        · simp [hl, hk, h0, hs, fsLookup_insert_ne _ _ _ _ h2]

/-! ## Claims -/

/-- C1: the claim says a run with one or more per-file transform errors
returns a single combined error enumerating every failure and that no
error is silently dropped.  The code drops every error: the merge loop of
`encryptDirectories` and `decrypt` matches each received error with
`errors.As(err, &cwalk.WalkerErrorList{})` into a discarded fresh value,
so the local `eList` it appends stays empty and the aggregate is always
nil — here evaluated on a run whose single root walk failed, and proved
to return nil on every possible input. -/
theorem c1_merge_drops_all_errors :
    mergeWalkErrors
      [some ["encryptdir.Walker.encryptWalk: os.OpenFile: permission denied"]]
        = none
    ∧ ∀ walkResults : List (Option (List String)),
        mergeWalkErrors walkResults = none := by
  constructor
  · rfl
  · intro walkResults
    simp [mergeWalkErrors, foldl_mergeStep]

set_option maxRecDepth 8000 in
/-- C2: the claim says that for a file whose extension is in KeyMap an
encrypt pass followed by a decrypt pass restores the original content.
On the spec scenario (KeyMap maps `txt`, `a.txt` contains `"hello"`) the
encrypt pass produces marker plus ciphertext, but the decrypt pass looks
the extension up with its leading dot (`.txt`), misses, and skips the
file, so the round trip leaves the file encrypted. -/
theorem c2_roundtrip_fails :
    fsLookup afterRoundTrip "a.txt"
        = some (List.replicate SIGNATURE_SIZE 1 ++ helloBytes)
    ∧ fsLookup afterRoundTrip "a.txt" ≠ some helloBytes := by
  constructor
  · decide
  · decide

set_option maxRecDepth 8000 in
/-- C3: the claim says the marker length checked and written by the
encrypt path equals the marker length read and verified by the decrypt
path.  The encrypt path uses `aes.SIGNATURE_SIZE` (the signature output
length, 256 bytes) while the decrypt path reads `crypto.MD5.Size()` = 16
bytes; consequently even with a KeyMap entry the decrypt direction can
find, decrypting a genuinely encrypted file verifies a 16-byte prefix of
the 256-byte marker, fails, and leaves the file encrypted. -/
theorem c3_marker_size_mismatch :
    encryptMarkerSize = 256
    ∧ decryptSigReadSize = 16
    ∧ encryptMarkerSize ≠ decryptSigReadSize
    ∧ (decryptWalkStep idCrypto bothFormsKeyMap "b.txt" false c3AfterEncrypt).out
        = .ok ()
    ∧ fsLookup (decryptWalkStep idCrypto bothFormsKeyMap "b.txt" false
        c3AfterEncrypt).fs "b.txt"
        = some (List.replicate SIGNATURE_SIZE 1 ++ helloBytes) := by
  refine ⟨rfl, rfl, by decide, by decide, by decide⟩

/-- C4: the claim says encrypt and decrypt apply the same dot-stripping
normalization before the KeyMap lookup.  For `a.txt` with extension
`.txt`, the encrypt path looks up the dot-stripped `txt` and finds the
key, while the decrypt path looks up the dotted `.txt` in the same KeyMap
and misses; the decrypt path only hits when the KeyMap is populated with
the dotted form the encrypt path cannot find. -/
theorem c4_normalization_differs :
    goExt "a.txt" = ".txt"
    ∧ encryptExtLookup [("txt", [7])] "a.txt" = .ok (some [7])
    ∧ decryptExtLookup [("txt", [7])] "a.txt" = none
    ∧ decryptExtLookup [(".txt", [7])] "a.txt" = some [7]
    ∧ encryptExtLookup [(".txt", [7])] "a.txt" = .ok none := by
  decide

/-- C5: for an eligible file shorter than the marker, the idempotency gate
of the encrypt direction evaluates totally — the slice
`plain[:aes.SIGNATURE_SIZE]` stays within the capacity of the buffer
`io.ReadAll` returns (at least 512 bytes, zero-filled beyond the length),
so there is no out-of-range failure — and, the zero-padded prefix not
being a valid marker, verification fails and the transform proceeds:
it creates the temp file, writes marker and ciphertext, and renames the
temp file over the original. -/
theorem c5_short_file_gate_total (cm : CryptoModel) (keyMap : KeyMap)
    (startPath path extKey : String) (key plain : List Byte) (fs : FS)
    (hext : goStringFrom1 (goExt path) = .ok extKey)
    (hkey : fsLookup keyMap extKey = some key)
    (hfile : fsLookup fs (pathJoin startPath path) = some plain)
    (hshort : plain.length < SIGNATURE_SIZE)
    (hver : plain ++ List.replicate (SIGNATURE_SIZE - plain.length) 0 ≠ cm.sign key)
    (htmp : fsMem fs (pathJoin startPath path ++ ".enc") = false) :
    (encryptWalkStep cm keyMap startPath path false fs).out = .ok ()
    ∧ (encryptWalkStep cm keyMap startPath path false fs).events =
        [.create (pathJoin startPath path ++ ".enc"),
         .write (pathJoin startPath path ++ ".enc") (cm.sign key),
         .write (pathJoin startPath path ++ ".enc") (cm.enc key plain),
         .rename (pathJoin startPath path ++ ".enc") (pathJoin startPath path)]
    ∧ fsLookup (encryptWalkStep cm keyMap startPath path false fs).fs
        (pathJoin startPath path) = some (cm.sign key ++ cm.enc key plain) := by
  have hstep : encryptWalkStep cm keyMap startPath path false fs =
      ⟨.ok (),
       fsRename
         (fsInsert (fsInsert (fsInsert fs (pathJoin startPath path ++ ".enc") [])
             (pathJoin startPath path ++ ".enc") (cm.sign key))
           (pathJoin startPath path ++ ".enc") (cm.sign key ++ cm.enc key plain))
         (pathJoin startPath path ++ ".enc") (pathJoin startPath path),
       [.create (pathJoin startPath path ++ ".enc"),
        .write (pathJoin startPath path ++ ".enc") (cm.sign key),
        .write (pathJoin startPath path ++ ".enc") (cm.enc key plain),
        .rename (pathJoin startPath path ++ ".enc") (pathJoin startPath path)]⟩ := by
    simp only [encryptWalkStep, hext, hkey, hfile, goSliceTo_pad plain hshort,
      if_neg hver, htmp, Bool.false_eq_true, if_false]
  rw [hstep]
  refine ⟨rfl, rfl, ?_⟩
  rw [fsLookup_rename_dst]
  exact fsLookup_insert_self _ _ _

set_option maxRecDepth 8000 in
/-- Witness for C5: the gate and transform evaluated on the concrete
five-byte file `a.txt` of the spec scenario, shorter than the 256-byte
marker. -/
theorem c5_short_file_gate_total_witness :
    goStringFrom1 (goExt "a.txt") = .ok "txt"
    ∧ fsLookup scenarioKeyMap "txt" = some [7]
    ∧ fsLookup scenarioFS (pathJoin "" "a.txt") = some helloBytes
    ∧ helloBytes.length < SIGNATURE_SIZE
    ∧ helloBytes ++ List.replicate (SIGNATURE_SIZE - helloBytes.length) 0
        ≠ idCrypto.sign [7]
    ∧ fsMem scenarioFS (pathJoin "" "a.txt" ++ ".enc") = false
    ∧ ((encryptWalkStep idCrypto scenarioKeyMap "" "a.txt" false scenarioFS).out
          = .ok ()
        ∧ (encryptWalkStep idCrypto scenarioKeyMap "" "a.txt" false
            scenarioFS).events =
          [.create (pathJoin "" "a.txt" ++ ".enc"),
           .write (pathJoin "" "a.txt" ++ ".enc") (idCrypto.sign [7]),
           .write (pathJoin "" "a.txt" ++ ".enc") (idCrypto.enc [7] helloBytes),
           .rename (pathJoin "" "a.txt" ++ ".enc") (pathJoin "" "a.txt")]
        ∧ fsLookup (encryptWalkStep idCrypto scenarioKeyMap "" "a.txt" false
            scenarioFS).fs (pathJoin "" "a.txt")
          = some (idCrypto.sign [7] ++ idCrypto.enc [7] helloBytes)) :=
  ⟨by decide, by decide, by decide, by decide, by decide, by decide,
   c5_short_file_gate_total idCrypto scenarioKeyMap "" "a.txt" "txt" [7]
     helloBytes scenarioFS (by decide) (by decide) (by decide) (by decide)
     (by decide) (by decide)⟩

/-- C6: the claim says the eligibility decision is total for every
non-directory entry, including one with no extension.  For a file named
`Makefile`, `filepath.Ext` returns the empty string and the encrypt
path's `ext[1:]` slices the empty string out of range: the goroutine
panics instead of silently skipping the entry. -/
theorem c6_no_extension_panics :
    goExt "Makefile" = ""
    ∧ encryptExtLookup [("txt", [7])] "Makefile"
        = .panicked "slice bounds out of range"
    ∧ (encryptWalkStep idCrypto [("txt", [7])] "" "Makefile" false
        [("Makefile", [35, 35])]).out
        = .panicked "slice bounds out of range" := by
  decide

/-- C7: the claim says no temporary file persists after a successful run,
in particular after every silent-skip outcome.  The decrypt transform
creates `path + ".dec"` before its eligibility and marker checks: on a
KeyMap miss (`n.txt` under a dot-stripped KeyMap) and on an
already-plaintext skip (`p.txt` under a dotted KeyMap) it returns success
with the empty temporary file left on disk. -/
theorem c7_temp_file_persists_after_skip :
    (decryptWalkStep idCrypto [("txt", [7])] "n.txt" false
        [("n.txt", helloBytes)]).out = .ok ()
    ∧ fsLookup (decryptWalkStep idCrypto [("txt", [7])] "n.txt" false
        [("n.txt", helloBytes)]).fs "n.txt.dec" = some []
    ∧ (decryptWalkStep idCrypto [(".txt", [7])] "p.txt" false
        [("p.txt", helloBytes)]).out = .ok ()
    ∧ fsLookup (decryptWalkStep idCrypto [(".txt", [7])] "p.txt" false
        [("p.txt", helloBytes)]).fs "p.txt.dec" = some [] := by
  decide

/-- C8: decrypting a file that is already plaintext — its marker
verification fails — returns success, performs no write event, and leaves
the bytes of the file unchanged (the transform does create the `.dec`
temporary before the check, a create event, but writes nothing and never
touches the original path). -/
theorem c8_plaintext_decrypt_no_writes (cm : CryptoModel) (keyMap : KeyMap)
    (path : String) (key content : List Byte) (fs : FS)
    (htmp : fsMem fs (path ++ ".dec") = false)
    (hfile : fsLookup fs path = some content)
    (hkey : decryptExtLookup keyMap path = some key)
    (hne : content ≠ [])
    (hver : content.take MD5_SIZE ++
        List.replicate (MD5_SIZE - min MD5_SIZE content.length) 0 ≠ cm.sign key) :
    (decryptWalkStep cm keyMap path false fs).out = .ok ()
    ∧ (∀ q d, Event.write q d ∉ (decryptWalkStep cm keyMap path false fs).events)
    ∧ fsLookup (decryptWalkStep cm keyMap path false fs).fs path = some content := by
  have hne2 : path ≠ path ++ ".dec" :=
    Ne.symm (string_append_right_ne path ".dec" (by decide))
  have hlen : ¬ content.length = 0 := by
    intro h0
    exact hne (List.length_eq_zero.mp h0)
  have hfile1 : fsLookup (fsInsert fs (path ++ ".dec") []) path = some content := by
    rw [fsLookup_insert_ne _ _ _ _ hne2]
    exact hfile
  have hstep : decryptWalkStep cm keyMap path false fs =
      ⟨.ok (), fsInsert fs (path ++ ".dec") [], [.create (path ++ ".dec")]⟩ := by
    simp only [decryptWalkStep, htmp, Bool.false_eq_true, if_false, hfile1,
      hkey, hlen, if_neg hver]
  rw [hstep]
  refine ⟨rfl, ?_, hfile1⟩
  intro q d hmem
  simp at hmem

/-- Witness for C8: a decrypt step over the plaintext file `w.txt` whose
dotted extension is in the KeyMap. -/
theorem c8_plaintext_decrypt_no_writes_witness :
    fsMem [("w.txt", helloBytes)] ("w.txt" ++ ".dec") = false
    ∧ fsLookup [("w.txt", helloBytes)] "w.txt" = some helloBytes
    ∧ decryptExtLookup [(".txt", [7])] "w.txt" = some [7]
    ∧ helloBytes ≠ []
    ∧ helloBytes.take MD5_SIZE ++
        List.replicate (MD5_SIZE - min MD5_SIZE helloBytes.length) 0
        ≠ idCrypto.sign [7]
    ∧ ((decryptWalkStep idCrypto [(".txt", [7])] "w.txt" false
          [("w.txt", helloBytes)]).out = .ok ()
       ∧ (∀ q d, Event.write q d ∉
            (decryptWalkStep idCrypto [(".txt", [7])] "w.txt" false
              [("w.txt", helloBytes)]).events)
       ∧ fsLookup (decryptWalkStep idCrypto [(".txt", [7])] "w.txt" false
            [("w.txt", helloBytes)]).fs "w.txt" = some helloBytes) :=
  ⟨by decide, by decide, by decide, by decide, by decide,
   c8_plaintext_decrypt_no_writes idCrypto [(".txt", [7])] "w.txt" [7]
     helloBytes [("w.txt", helloBytes)] (by decide) (by decide) (by decide)
     (by decide) (by decide)⟩

/-- C9: when the exclusive creation of the temporary file fails because
the temp path already exists, both transforms return success with no
further action: the encrypt step (whose temp check follows the
eligibility and idempotency checks) and the decrypt step (whose temp
check comes first) leave the filesystem untouched, perform no event, and
report no error. -/
theorem c9_temp_exists_silent_skip (cm : CryptoModel) (keyMap : KeyMap)
    (startPath path extKey dpath : String) (key plain sigc : List Byte)
    (fs fsd : FS)
    (hext : goStringFrom1 (goExt path) = .ok extKey)
    (hkey : fsLookup keyMap extKey = some key)
    (hfile : fsLookup fs (pathJoin startPath path) = some plain)
    (hslice : goSliceTo plain (readAllCap plain.length) SIGNATURE_SIZE = .ok sigc)
    (hver : sigc ≠ cm.sign key)
    (htmp : fsMem fs (pathJoin startPath path ++ ".enc") = true)
    (htmpd : fsMem fsd (dpath ++ ".dec") = true) :
    encryptWalkStep cm keyMap startPath path false fs = ⟨.ok (), fs, []⟩
    ∧ decryptWalkStep cm keyMap dpath false fsd = ⟨.ok (), fsd, []⟩ := by
  constructor
  · simp only [encryptWalkStep, hext, hkey, hfile, hslice, if_neg hver, htmp,
      if_true, Bool.false_eq_true, if_false]
  · simp only [decryptWalkStep, htmpd, if_true, Bool.false_eq_true, if_false]

set_option maxRecDepth 8000 in
/-- Witness for C9: an encrypt step over `a.txt` with `a.txt.enc` already
present, and a decrypt step over `b.txt` with `b.txt.dec` already
present. -/
theorem c9_temp_exists_silent_skip_witness :
    goStringFrom1 (goExt "a.txt") = .ok "txt"
    ∧ fsLookup scenarioKeyMap "txt" = some [7]
    ∧ fsLookup c9fsEnc (pathJoin "" "a.txt") = some helloBytes
    ∧ goSliceTo helloBytes (readAllCap helloBytes.length) SIGNATURE_SIZE
        = .ok (helloBytes ++ List.replicate 251 0)
    ∧ helloBytes ++ List.replicate 251 0 ≠ idCrypto.sign [7]
    ∧ fsMem c9fsEnc (pathJoin "" "a.txt" ++ ".enc") = true
    ∧ fsMem c9fsDec ("b.txt" ++ ".dec") = true
    ∧ (encryptWalkStep idCrypto scenarioKeyMap "" "a.txt" false c9fsEnc
          = ⟨.ok (), c9fsEnc, []⟩
       ∧ decryptWalkStep idCrypto scenarioKeyMap "b.txt" false c9fsDec
          = ⟨.ok (), c9fsDec, []⟩) :=
  ⟨by decide, by decide, by decide, by decide, by decide, by decide, by decide,
   c9_temp_exists_silent_skip idCrypto scenarioKeyMap "" "a.txt" "txt" "b.txt"
     [7] helloBytes (helloBytes ++ List.replicate 251 0) c9fsEnc c9fsDec
     (by decide) (by decide) (by decide) (by decide) (by decide) (by decide)
     (by decide)⟩

/-- C10: the decrypt transform addresses the walker-relative entry path
itself — it opens `path`, creates `path + ".dec"` and renames over
`path`, never joining the path to a root, and the single shared decrypt
walker has the zero-value empty `startPath` — while the encrypt transform
addresses `filepath.Join(startPath, path)`; hence for any root other than
the empty string or the current directory the two directions address
different filesystem paths.  The final conjunct shows the decrypt step
never touches any path built from a root: every path other than `p` and
`p ++ ".dec"` is untouched. -/
theorem c10_decrypt_ignores_root (cm : CryptoModel) (keyMap : KeyMap)
    (r p : String) (isDir : Bool) (fs : FS)
    (hr1 : r ≠ "") (hr2 : r ≠ ".") :
    decryptWalkerStartPath = ""
    ∧ decryptTargetPath p = p
    ∧ decryptTempPath p = p ++ ".dec"
    ∧ encryptTargetPath r p = r ++ "/" ++ p
    ∧ encryptTargetPath r p ≠ decryptTargetPath p
    ∧ ∀ q, q ≠ p → q ≠ p ++ ".dec" →
        fsLookup (decryptWalkStep cm keyMap p isDir fs).fs q = fsLookup fs q := by
  have hjoin : encryptTargetPath r p = r ++ "/" ++ p := by
    unfold encryptTargetPath pathJoin
    rw [if_neg]
    simp [hr1, hr2]
  have hslash : (r ++ "/" : String) ≠ "" := by
    intro h0
    have hl := congrArg String.length h0
    rw [String.length_append] at hl
    have hx : ("/" : String).length = 1 := by decide
    have hy : ("" : String).length = 0 := by decide
    rw [hx, hy] at hl
    omega
  refine ⟨rfl, rfl, rfl, hjoin, ?_, ?_⟩
  · rw [hjoin]
    exact string_append_left_ne (r ++ "/") p hslash
  · intro q hq1 hq2
    exact decryptWalkStep_frame cm keyMap p isDir fs q hq1 hq2

/-- Witness for C10: the paths addressed by the two directions for the
root `/data` and the entry `a.txt`. -/
theorem c10_decrypt_ignores_root_witness :
    ("/data" : String) ≠ ""
    ∧ ("/data" : String) ≠ "."
    ∧ (decryptWalkerStartPath = ""
       ∧ decryptTargetPath "a.txt" = "a.txt"
       ∧ decryptTempPath "a.txt" = "a.txt" ++ ".dec"
       ∧ encryptTargetPath "/data" "a.txt" = "/data" ++ "/" ++ "a.txt"
       ∧ encryptTargetPath "/data" "a.txt" ≠ decryptTargetPath "a.txt"
       ∧ ∀ q, q ≠ "a.txt" → q ≠ "a.txt" ++ ".dec" →
           fsLookup (decryptWalkStep idCrypto scenarioKeyMap "a.txt" false
             [("a.txt", helloBytes)]).fs q
             = fsLookup [("a.txt", helloBytes)] q) :=
  ⟨by decide, by decide,
   c10_decrypt_ignores_root idCrypto scenarioKeyMap "/data" "a.txt" false
     [("a.txt", helloBytes)] (by decide) (by decide)⟩

end Encryptdir
